import Mathlib

/-!
Shallow embedding of the latlg-address coordinate-to-address pipeline
(`main.go` and the batched worker-pool variant) and proofs about it.

Modelling conventions:
* Go strings handled character-by-character (`strings.Split`, `strings.TrimSpace`,
  `strconv.ParseFloat` inputs) are `List Char` (`GoStr`); strings only ever
  compared or concatenated (address fields, cache keys) are Lean `String`.
* A parsed `float64` is kept exactly as sign, mantissa and decimal/binary
  exponents (`GoFloat.finite neg mant exp10 exp2`, value `±mant·10^exp10·2^exp2`);
  the binary rounding of `strconv.ParseFloat` is not modelled, which is
  irrelevant here because the pipeline only ever formats the value back to
  six decimals (`%.6f`) or passes it through.
* `%.6f` is modelled by `fmt6`, rounding the exact value half away from zero
  (Go rounds the decimal expansion of the binary value half to even; the two
  agree except on exact decimal ties, which no claim exercises).
* Concurrency (the 10-worker pool, channels) is serialised: jobs are processed
  in queue order, which preserves the observable per-job input/output relation,
  the exactly-once consumption of each job, and the shared-cache state flow.
* Sleeps and HTTP traffic of the geocode client are reified as an event trace
  (`GeoEv`); the HTTP transport and the JSON decoder are an oracle
  `Nat → GeoReq → HttpReply` giving the reply (status, raw body, decode result)
  for each attempt.
-/

/-- Go strings processed character-by-character. -/
abbrev GoStr := List Char

/-- Lower-casing of ASCII letters, as strconv's `lower`. -/
def lowerChar (c : Char) : Char :=
  if 'A' ≤ c ∧ c ≤ 'Z' then Char.ofNat (c.toNat + 32) else c

/-- Whitespace recognised by `strings.TrimSpace` (the Latin-1 part of
`unicode.IsSpace`; exotic Unicode space classes are not modelled). -/
def isGoSpace (c : Char) : Bool :=
  c == ' ' || c == '\t' || c == '\n' || c == Char.ofNat 11 || c == Char.ofNat 12 ||
    c == '\r' || c == Char.ofNat 0x85 || c == Char.ofNat 0xA0

/-- Embedding of `strings.TrimSpace`. -/
def goTrim (l : GoStr) : GoStr :=
  ((l.dropWhile isGoSpace).reverse.dropWhile isGoSpace).reverse

/-- Embedding of `strings.Split(s, ",")`: splits at every comma. -/
def splitComma : GoStr → List GoStr
  | [] => [[]]
  | c :: r =>
    if c = ',' then [] :: splitComma r
    else
      match splitComma r with
      | [] => [[c]]
      | h :: t => (c :: h) :: t

/-- Result of `strconv.ParseFloat`: an exact finite value `±mant·10^exp10·2^exp2`,
an infinity, or NaN. -/
inductive GoFloat where
  | finite (neg : Bool) (mant : Nat) (exp10 exp2 : Int)
  | posInf
  | negInf
  | nan
  deriving DecidableEq

/-- Strip one leading sign character, reporting whether it was a minus. -/
def splitSign : GoStr → Bool × GoStr
  | '+' :: r => (false, r)
  | '-' :: r => (true, r)
  | l => (false, l)

/-- The `special` cases of `strconv.ParseFloat`: `inf`, `infinity`
(optionally signed) and unsigned `nan`, case-insensitively. -/
def parseSpecial (l : GoStr) : Option GoFloat :=
  let p := splitSign l
  let low := p.2.map lowerChar
  if low = ['i', 'n', 'f'] ∨ low = ['i', 'n', 'f', 'i', 'n', 'i', 't', 'y'] then
    some (if p.1 then .negInf else .posInf)
  else if l.map lowerChar = ['n', 'a', 'n'] then some .nan
  else none

/-- Scan a run of decimal digits (underscores skipped, validated separately),
accumulating the value; returns (value, digit count, rest). -/
def scanDigits : Nat → Nat → GoStr → Nat × Nat × GoStr
  | acc, nd, [] => (acc, nd, [])
  | acc, nd, c :: r =>
    if '0' ≤ c ∧ c ≤ '9' then scanDigits (10 * acc + (c.toNat - 48)) (nd + 1) r
    else if c = '_' then scanDigits acc nd r
    else (acc, nd, c :: r)

/-- Value of a hexadecimal digit. -/
def hexVal (c : Char) : Option Nat :=
  if '0' ≤ c ∧ c ≤ '9' then some (c.toNat - 48)
  else if 'a' ≤ lowerChar c ∧ lowerChar c ≤ 'f' then some ((lowerChar c).toNat - 87)
  else none

/-- Scan a run of hexadecimal digits (underscores skipped). -/
def scanHexDigits : Nat → Nat → GoStr → Nat × Nat × GoStr
  | acc, nd, [] => (acc, nd, [])
  | acc, nd, c :: r =>
    match hexVal c with
    | some v => scanHexDigits (16 * acc + v) (nd + 1) r
    | none => if c = '_' then scanHexDigits acc nd r else (acc, nd, c :: r)

/-- Core loop of strconv's `underscoreOK`: `saw` is the category of the previous
character (caret for start, zero for digit, underscore, bang for other). -/
def underscoreScan (hex : Bool) : Char → GoStr → Bool
  | saw, [] => saw ≠ '_'
  | saw, c :: r =>
    if ('0' ≤ c ∧ c ≤ '9') ∨ (hex ∧ 'a' ≤ lowerChar c ∧ lowerChar c ≤ 'f') then
      underscoreScan hex '0' r
    else if c = '_' then
      if saw = '0' then underscoreScan hex '_' r else false
    else if saw = '_' then false
    else underscoreScan hex '!' r

/-- Embedding of strconv's `underscoreOK`: underscores may only separate
digits (a base prefix counting as a digit). -/
def underscoreOK (l : GoStr) : Bool :=
  let p := splitSign l
  match p.2 with
  | '0' :: c :: r =>
    if lowerChar c = 'x' ∨ lowerChar c = 'b' ∨ lowerChar c = 'o' then
      underscoreScan (lowerChar c = 'x') '0' r
    else underscoreScan false '^' p.2
  | _ => underscoreScan false '^' p.2

/-- Optional decimal exponent suffix (`e`/`E`, optional sign, digits) after a
mantissa worth `mant·10^(-fracDigits)`. -/
def parseExpPart (neg : Bool) (mant : Nat) (fracDigits : Nat) : GoStr → Option GoFloat
  | [] => some (.finite neg mant (-(fracDigits : Int)) 0)
  | c :: r =>
    if lowerChar c = 'e' then
      let p := splitSign r
      let d := scanDigits 0 0 p.2
      if d.2.1 = 0 ∨ d.2.2 ≠ [] then none
      else
        some (.finite neg mant
          ((if p.1 then -(d.1 : Int) else (d.1 : Int)) - (fracDigits : Int)) 0)
    else none

/-- Decimal form accepted by `strconv.ParseFloat`:
`digits [. digits] [e sign digits]`, at least one mantissa digit. -/
def parseDec (neg : Bool) (l : GoStr) : Option GoFloat :=
  let m := scanDigits 0 0 l
  match m.2.2 with
  | '.' :: r2 =>
    let f := scanDigits m.1 0 r2
    if m.2.1 + f.2.1 = 0 then none
    else parseExpPart neg f.1 f.2.1 f.2.2
  | rest =>
    if m.2.1 = 0 then none else parseExpPart neg m.1 0 rest

/-- Hexadecimal form accepted by `strconv.ParseFloat` (after the `0x` prefix):
`hexdigits [. hexdigits] p sign digits`; the binary exponent is mandatory. -/
def parseHex (neg : Bool) (l : GoStr) : Option GoFloat :=
  let m := scanHexDigits 0 0 l
  let afterDot :=
    match m.2.2 with
    | '.' :: r2 =>
      let f := scanHexDigits m.1 0 r2
      (f.1, m.2.1 + f.2.1, f.2.1, f.2.2)
    | rest => (m.1, m.2.1, 0, rest)
  if afterDot.2.1 = 0 then none
  else
    match afterDot.2.2.2 with
    | c :: r =>
      if lowerChar c = 'p' then
        let p := splitSign r
        let d := scanDigits 0 0 p.2
        if d.2.1 = 0 ∨ d.2.2 ≠ [] then none
        else
          some (.finite neg afterDot.1 0
            ((if p.1 then -(d.1 : Int) else (d.1 : Int)) - 4 * (afterDot.2.2.1 : Int)))
      else none
    | [] => none

/-- Embedding of `strconv.ParseFloat(s, 64)`: `none` exactly when Go returns an
error; the value is kept exactly rather than rounded to binary. -/
def goParseFloat (l : GoStr) : Option GoFloat :=
  match parseSpecial l with
  | some f => some f
  | none =>
    if l.contains '_' && !underscoreOK l then none
    else
      let p := splitSign l
      match p.2 with
      | '0' :: c :: r => if lowerChar c = 'x' then parseHex p.1 r else parseDec p.1 p.2
      | _ => parseDec p.1 p.2

/-- Zero-padded six-digit rendering of the fractional part. -/
def pad6 (k : Nat) : String :=
  let s := toString k
  String.mk (List.replicate (6 - s.length) '0') ++ s

/-- Embedding of `fmt.Sprintf("%.6f", x)`: fixed six-decimal formatting,
rounding half away from zero on the exact value. -/
def fmt6 : GoFloat → String
  | .finite neg mant exp10 exp2 =>
    let num := mant * 10 ^ exp10.toNat * 2 ^ exp2.toNat
    let den := 10 ^ (-exp10).toNat * 2 ^ (-exp2).toNat
    let n := (2 * num * 1000000 + den) / (2 * den)
    (if neg then "-" else "") ++ toString (n / 1000000) ++ "." ++ pad6 (n % 1000000)
  | .posInf => "+Inf"
  | .negInf => "-Inf"
  | .nan => "NaN"

/-- The `Coordinates` struct: a parsed latitude/longitude pair. -/
structure Coordinates where
  lat : GoFloat
  lng : GoFloat
  deriving DecidableEq

/-- Errors of the coordinate parser. The Go code reports them as distinct
message strings; the empty-input case is the caller's pre-parse skip. -/
inductive ParseError where
  | emptyInput
  | badFormat
  | badLatitude
  | badLongitude
  deriving DecidableEq

/-- Embedding of `Service.parseCoordinates`: split on every comma, demand
exactly two segments, parse each segment after trimming it. -/
def parseCoordinates (l : GoStr) : Except ParseError Coordinates :=
  match splitComma l with
  | [a, b] =>
    match goParseFloat (goTrim a) with
    | none => .error .badLatitude
    | some la =>
      match goParseFloat (goTrim b) with
      | none => .error .badLongitude
      | some lb => .ok ⟨la, lb⟩
  | _ => .error .badFormat

/-- The Coordinate Parser of the spec: the worker's trim-and-skip-empty
preamble composed with `parseCoordinates`. -/
def parseCell (l : GoStr) : Except ParseError Coordinates :=
  let t := goTrim l
  if t = [] then .error .emptyInput else parseCoordinates t

instance {ε α : Type} [DecidableEq ε] [DecidableEq α] : DecidableEq (Except ε α) := fun x y =>
  match x, y with
  | .error a, .error b =>
    if h : a = b then isTrue (by rw [h]) else isFalse (by simp [h])
  | .ok a, .ok b =>
    if h : a = b then isTrue (by rw [h]) else isFalse (by simp [h])
  | .error _, .ok _ => isFalse (by simp)
  | .ok _, .error _ => isFalse (by simp)

/-- A resolved location: the three strings written back to the table. -/
structure ResolvedLocation where
  address : String
  district : String
  province : String
  deriving DecidableEq

/-- The address breakdown of a Nominatim response. -/
structure GoAddress where
  houseNumber : String := ""
  road : String := ""
  suburb : String := ""
  city : String := ""
  county : String := ""
  state : String := ""
  stateDistrict : String := ""
  postcode : String := ""
  country : String := ""
  subdistrict : String := ""
  district : String := ""
  province : String := ""
  deriving DecidableEq

/-- A decoded geocoder response. -/
structure GeocodeResponse where
  displayName : String
  address : GoAddress
  deriving DecidableEq

/-- Embedding of `Service.formatFullAddress`. -/
def formatFullAddress (resp : GeocodeResponse) : String :=
  let addr := resp.address
  let parts : List String := []
  let parts :=
    if addr.houseNumber ≠ "" ∧ addr.road ≠ "" then parts ++ [addr.houseNumber ++ " " ++ addr.road]
    else if addr.road ≠ "" then parts ++ [addr.road]
    else if addr.houseNumber ≠ "" then parts ++ [addr.houseNumber]
    else parts
  let parts :=
    if addr.subdistrict ≠ "" then parts ++ [addr.subdistrict]
    else if addr.suburb ≠ "" then parts ++ [addr.suburb]
    else parts
  let parts :=
    if addr.district ≠ "" then parts ++ [addr.district]
    else if addr.county ≠ "" then parts ++ [addr.county]
    else if addr.stateDistrict ≠ "" then parts ++ [addr.stateDistrict]
    else parts
  let parts :=
    if addr.province ≠ "" then parts ++ [addr.province]
    else if addr.state ≠ "" then parts ++ [addr.state]
    else if addr.city ≠ "" then parts ++ [addr.city]
    else parts
  let parts := if addr.postcode ≠ "" then parts ++ [addr.postcode] else parts
  let parts := if addr.country ≠ "" then parts ++ [addr.country] else parts
  if parts = [] then resp.displayName else String.intercalate ", " parts

/-- Embedding of `Service.extractDistrictFromDisplayName`: best-effort scan of
the comma-separated display name from the third-from-last segment downwards. -/
def extractDistrictFromDisplayName (displayName : String) (resp : GeocodeResponse) : String :=
  let parts := displayName.splitOn ","
  if 3 ≤ parts.length then
    match ((parts.take (parts.length - 2)).reverse.map String.trim).find?
        (fun part => part != "" && part != resp.address.province &&
          part != resp.address.country && part != resp.address.city &&
          part != resp.address.state) with
    | some part => part
    | none => ""
  else ""

/-- Embedding of `Service.extractDistrictAndProvince` (the batched variant with
the display-name fallback). -/
def extractDistrictAndProvince (resp : GeocodeResponse) : String × String :=
  let addr := resp.address
  let district :=
    if addr.district ≠ "" then addr.district
    else if addr.county ≠ "" then addr.county
    else if addr.stateDistrict ≠ "" then addr.stateDistrict
    else if addr.subdistrict ≠ "" then addr.subdistrict
    else if addr.suburb ≠ "" then addr.suburb
    else if addr.city ≠ "" ∧ addr.province = "" then addr.city
    else extractDistrictFromDisplayName resp.displayName resp
  let province :=
    if addr.province ≠ "" then addr.province
    else if addr.state ≠ "" then addr.state
    else if addr.city ≠ "" then addr.city
    else if addr.country ≠ "" then addr.country
    else ""
  (district, province)

/-- An outbound reverse-geocode request: the latitude and longitude as the
six-decimal strings placed in the URL (`params.Set` with `%.6f`). -/
structure GeoReq where
  lat6 : String
  lng6 : String
  deriving DecidableEq

/-- Request formation in `Service.reverseGeocode`. -/
def geoRequest (lat lng : GoFloat) : GeoReq := ⟨fmt6 lat, fmt6 lng⟩

/-- Cache key used by both `coordinateCache.get` and `coordinateCache.set`:
`fmt.Sprintf("%.6f,%.6f", lat, lng)`. -/
def cacheKey (lat lng : GoFloat) : String := fmt6 lat ++ "," ++ fmt6 lng

/-- The coordinate cache, as the association of keys to entries. -/
abbrev Cache := List (String × ResolvedLocation)

/-- Embedding of `coordinateCache.get`. -/
def cacheGet (c : Cache) (lat lng : GoFloat) : Option ResolvedLocation :=
  c.lookup (cacheKey lat lng)

/-- Embedding of `coordinateCache.set` (insert-or-overwrite). -/
def cacheSet (c : Cache) (lat lng : GoFloat) (v : ResolvedLocation) : Cache :=
  (cacheKey lat lng, v) :: c

/-- One HTTP attempt's outcome as seen by `reverseGeocode`: a transport-level
failure, or a reply with status, raw body, and JSON-decode result. -/
inductive HttpReply where
  | netError
  | reply (status : Nat) (body : String) (decoded : Option GeocodeResponse)

/-- Terminal outcomes of `Service.reverseGeocode`, one per return site. -/
inductive GeoResult where
  | ok (address district province : String)
  | netErr
  | rateLimited
  | statusErr (status : Nat) (body : String)
  | decodeErr
  | noResult
  | exhausted
  deriving DecidableEq

/-- Observable timing/traffic events of one `reverseGeocode` call, in order:
the exponential backoff sleeps, the outbound requests, and the extra
rate-limit penalty sleeps. Durations are in seconds. -/
inductive GeoEv where
  | backoff (seconds : Nat)
  | request (attempt : Nat)
  | rateWait (seconds : Nat)
  deriving DecidableEq

/-- Retry loop of `Service.reverseGeocode`; `fuel` is the number of attempts
still allowed (`maxRetries - attempt`), so `0 < fuel` inside an attempt is
Go's `attempt < maxRetries-1`. -/
def rgAux (t : Nat → GeoReq → HttpReply) (req : GeoReq) : Nat → Nat → GeoResult × List GeoEv
  | _, 0 => (.exhausted, [])
  | attempt, fuel + 1 =>
    let pre : List GeoEv := if 0 < attempt then [.backoff (2 * 2 ^ (attempt - 1))] else []
    let ev := pre ++ [.request attempt]
    match t attempt req with
    | .netError =>
      if 0 < fuel then
        let nxt := rgAux t req (attempt + 1) fuel
        (nxt.1, ev ++ nxt.2)
      else (.netErr, ev)
    | .reply status body decoded =>
      if status = 429 then
        if 0 < fuel then
          let nxt := rgAux t req (attempt + 1) fuel
          (nxt.1, ev ++ [.rateWait ((attempt + 1) * 10)] ++ nxt.2)
        else (.rateLimited, ev)
      else if status ≠ 200 then
        if 0 < fuel ∧ 500 ≤ status then
          let nxt := rgAux t req (attempt + 1) fuel
          (nxt.1, ev ++ nxt.2)
        else (.statusErr status body, ev)
      else
        match decoded with
        | none =>
          if 0 < fuel then
            let nxt := rgAux t req (attempt + 1) fuel
            (nxt.1, ev ++ nxt.2)
          else (.decodeErr, ev)
        | some resp =>
          if resp.displayName = "" then (.noResult, ev)
          else
            (.ok (formatFullAddress resp) (extractDistrictAndProvince resp).1
              (extractDistrictAndProvince resp).2, ev)

/-- Embedding of `Service.reverseGeocode`: up to `maxRetries = 3` attempts
against the transport, starting at attempt 0. -/
def reverseGeocodeGo (lat lng : GoFloat) (t : Nat → GeoReq → HttpReply) :
    GeoResult × List GeoEv :=
  rgAux t (geoRequest lat lng) 0 3

/-- Whether an event is an outbound request. -/
def isRequestEv : GeoEv → Bool
  | .request _ => true
  | _ => false

/-- Number of outbound requests in a trace. -/
def requestCount (evs : List GeoEv) : Nat := (evs.filter isRequestEv).length

/-- The cache-consult block of the worker loop (`processBatch` lines 255-273):
on a hit answer from the cache with no upstream call, on a miss call the
upstream once and cache a successful result. Returns the outcome, the new
cache, and the number of upstream calls made (0 or 1). -/
def resolveViaCache (upstream : GeoReq → Except String ResolvedLocation) (c : Cache)
    (lat lng : GoFloat) : Except String ResolvedLocation × Cache × Nat :=
  match cacheGet c lat lng with
  | some v => (.ok v, c, 0)
  | none =>
    match upstream (geoRequest lat lng) with
    | .error e => (.error e, c, 1)
    | .ok v => (.ok v, cacheSet c lat lng v, 1)

/-- Reasons a row is skipped (the `message` strings of `rowResult`). -/
inductive SkipReason where
  | emptyCoordinates
  | parseFail (e : ParseError)
  | geocodeFail
  deriving DecidableEq

/-- The `rowResult` sent over the results channel. -/
inductive RowResult where
  | skipped (rowIndex : Nat) (reason : SkipReason)
  | resolved (rowIndex : Nat) (location : ResolvedLocation) (coordinates : Coordinates)
  deriving DecidableEq

/-- Instrumentation of one worker-loop iteration: whether the parser ran and
how many upstream calls were made. -/
structure RowStats where
  parserCalled : Bool
  upstreamCalls : Nat
  deriving DecidableEq

/-- The `maxCol` computation at the top of the worker loop. -/
def maxColOf (latLngCol addressCol districtCol provinceCol : Nat) : Nat :=
  let m := latLngCol
  let m := if addressCol > m then addressCol else m
  let m := if districtCol > m then districtCol else m
  if provinceCol > m then provinceCol else m

/-- The padding loop `for len(row) <= maxCol { row = append(row, "") }`. -/
def padRow (row : List GoStr) (maxCol : Nat) : List GoStr :=
  row ++ List.replicate (maxCol + 1 - row.length) []

/-- One worker-loop iteration of `processBatch`/`processRows`: pad the row,
trim the coordinate cell, skip if empty, parse, consult the cache, and on a
miss call upstream and cache the result. -/
def processRow (upstream : GeoReq → Except String ResolvedLocation) (cache : Cache)
    (row : List GoStr) (rowIndex latLngCol addressCol districtCol provinceCol : Nat) :
    RowResult × Cache × RowStats :=
  let maxCol := maxColOf latLngCol addressCol districtCol provinceCol
  let padded := padRow row maxCol
  let coordStr := goTrim (padded.getD latLngCol [])
  if coordStr = [] then
    (.skipped rowIndex .emptyCoordinates, cache, ⟨false, 0⟩)
  else
    match parseCoordinates coordStr with
    | .error e => (.skipped rowIndex (.parseFail e), cache, ⟨true, 0⟩)
    | .ok coords =>
      match resolveViaCache upstream cache coords.lat coords.lng with
      | (.error _, c', n) => (.skipped rowIndex .geocodeFail, c', ⟨true, n⟩)
      | (.ok v, c', n) => (.resolved rowIndex v coords, c', ⟨true, n⟩)

/-- Job loop of the worker pool over one batch, serialised in queue order:
job `batchIdx` processes `batchRows[batchIdx]` as row index
`startIndex + batchIdx`. Produces exactly one result per job. -/
def processJobsM (upstream : GeoReq → Except String ResolvedLocation)
    (startIndex latLngCol addressCol districtCol provinceCol : Nat) :
    List (List GoStr) → Nat → Cache → List RowResult × Cache
  | [], _, c => ([], c)
  | row :: rest, batchIdx, c =>
    let step := processRow upstream c row (startIndex + batchIdx) latLngCol addressCol
      districtCol provinceCol
    let tail := processJobsM upstream startIndex latLngCol addressCol districtCol provinceCol
      rest (batchIdx + 1) step.2.1
    (step.1 :: tail.1, tail.2)

/-- Embedding of `Service.processBatch` (the worker-pool part). -/
def processBatchM (upstream : GeoReq → Except String ResolvedLocation)
    (batchRows : List (List GoStr))
    (startIndex latLngCol addressCol districtCol provinceCol : Nat) (c : Cache) :
    List RowResult × Cache :=
  processJobsM upstream startIndex latLngCol addressCol districtCol provinceCol batchRows 0 c

/-- One `SetCellValue` performed by the result writer: sheet row number
(`rowIndex + 1` in the source) and zero-based column index. -/
structure CellWrite where
  rowNum : Nat
  colIndex : Nat
  value : String
  deriving DecidableEq

/-- Result loop of `processBatch`: skipped results write nothing, resolved
results write address, district and province at row `rowIndex + 1`; returns
the writes and the processed count. -/
def applyResults (addressCol districtCol provinceCol : Nat) :
    List RowResult → List CellWrite × Nat
  | [] => ([], 0)
  | .skipped _ _ :: rest => applyResults addressCol districtCol provinceCol rest
  | .resolved i loc _ :: rest =>
    let tail := applyResults addressCol districtCol provinceCol rest
    (⟨i + 1, addressCol, loc.address⟩ :: ⟨i + 1, districtCol, loc.district⟩ ::
      ⟨i + 1, provinceCol, loc.province⟩ :: tail.1, tail.2 + 1)

/-- Mode selection in `Service.Process`: batched iff `totalRows > 100000`. -/
def chooseBatchedMode (totalRows : Nat) : Bool := decide (100000 < totalRows)

/-- The half-open slice bounds `[start, end)` of each batch computed by
`processRowsInBatches` for a table of `numRows` rows (header included). -/
def batchRanges (numRows batchSize : Nat) : List (Nat × Nat) :=
  let totalRows := numRows - 1
  let totalBatches := (totalRows + batchSize - 1) / batchSize
  (List.range totalBatches).map fun batch =>
    (batch * batchSize + 1, min (batch * batchSize + 1 + batchSize) numRows)

/-- Observable outcome of one batched run. -/
structure RunOutcome where
  invocations : List (Nat × Nat)
  results : List RowResult
  writes : List CellWrite
  processed : Nat
  warnings : List Nat
  cache : Cache
  deriving DecidableEq

/-- Batch loop of `processRowsInBatches`: for each slice run the worker pool
with `startIndex = start - 1`, apply its results, then attempt the checkpoint
save; a failed save (per `saveOK`) only records a warning. -/
def runBatchesM (upstream : GeoReq → Except String ResolvedLocation)
    (rows : List (List GoStr)) (latLngCol addressCol districtCol provinceCol : Nat)
    (saveOK : Nat → Bool) : List (Nat × Nat) → Nat → Cache → RunOutcome
  | [], _, c => ⟨[], [], [], 0, [], c⟩
  | (s, e) :: rest, batch, c =>
    let batchRows := (rows.drop s).take (e - s)
    let br := processBatchM upstream batchRows (s - 1) latLngCol addressCol districtCol
      provinceCol c
    let ap := applyResults addressCol districtCol provinceCol br.1
    let tail := runBatchesM upstream rows latLngCol addressCol districtCol provinceCol saveOK
      rest (batch + 1) br.2
    ⟨(s, e) :: tail.invocations, br.1 ++ tail.results, ap.1 ++ tail.writes,
      ap.2 + tail.processed, (if saveOK batch then [] else [batch]) ++ tail.warnings,
      tail.cache⟩

/-- Embedding of `Service.processRowsInBatches`. -/
def processRowsInBatchesM (upstream : GeoReq → Except String ResolvedLocation)
    (rows : List (List GoStr)) (latLngCol addressCol districtCol provinceCol batchSize : Nat)
    (saveOK : Nat → Bool) : RunOutcome :=
  runBatchesM upstream rows latLngCol addressCol districtCol provinceCol saveOK
    (batchRanges rows.length batchSize) 0 []

/-- Modelled from the spec: the spec's Coordinate Parser "splits on the first
comma", i.e. at most two segments, everything after the first comma kept
whole. Stated only to compare with the source's split-on-every-comma. -/
def specSplitFirstComma : GoStr → List GoStr
  | [] => [[]]
  | c :: r =>
    if c = ',' then [[], r]
    else
      match specSplitFirstComma r with
      | [] => [[c]]
      | h :: t => (c :: h) :: t

/-- A transport answering HTTP 429 on the first two attempts and HTTP 200 with
a decodable body on the third. -/
def twoRateLimitsThenOK (resp : GeocodeResponse) : Nat → GeoReq → HttpReply :=
  fun a _ => if a < 2 then .reply 429 "" none else .reply 200 "" (some resp)

/-- A transport answering HTTP 429 on every attempt. -/
def alwaysRateLimited : Nat → GeoReq → HttpReply := fun _ _ => .reply 429 "" none

/-- The geocoder response of the end-to-end scenario: district, province and
country set, every other address field empty, non-empty display name. -/
def stungTrengResp : GeocodeResponse :=
  { displayName := "Stung Treng, Cambodia",
    address := { district := "Stung Treng", province := "Stung Treng", country := "Cambodia" } }

/-- Latitude 13.536964 of the end-to-end scenario. -/
def latStungTreng : GoFloat := .finite false 13536964 (-6) 0

/-- Longitude 105.927722 of the end-to-end scenario. -/
def lngStungTreng : GoFloat := .finite false 105927722 (-6) 0

/-- The value 13.7563001: formats to 13.756300 at six decimals. -/
def c1latA : GoFloat := .finite false 137563001 (-7) 0

/-- The distinct value 13.756300: formats to the same six-decimal text. -/
def c1latB : GoFloat := .finite false 13756300 (-6) 0

/-- A longitude shared by the two cache-test coordinate pairs. -/
def c1lng : GoFloat := .finite false 1005018 (-4) 0

/-- A deterministic always-successful upstream for the cache test. -/
def c1upstream : GeoReq → Except String ResolvedLocation := fun _ => .ok ⟨"a", "d", "p"⟩

/-- A two-row table (header plus one data row holding coordinates 1,2). -/
def c6rows : List (List GoStr) := [[['h']], [['1', ',', '2']]]

/-- An always-successful upstream used for concrete batched runs. -/
def c6upstream : GeoReq → Except String ResolvedLocation := fun _ => .ok ⟨"A", "D", "P"⟩

/-- Decidable form of a well-formed coordinate cell: the trimmed text splits at
exactly one comma into two segments accepted by the float parser. -/
def wellFormedB (l : GoStr) : Bool :=
  match splitComma (goTrim l) with
  | [a, b] => (goParseFloat (goTrim a)).isSome && (goParseFloat (goTrim b)).isSome
  | _ => false

/-! Helper lemmas about the comma splitter, padding, the retry loop and the
batch loop. -/

theorem splitComma_ne_nil (l : GoStr) : splitComma l ≠ [] := by
  induction l with
  | nil => simp [splitComma]
  | cons c r ih =>
    simp only [splitComma]
    split
    · simp
    · split <;> simp

theorem length_splitComma (l : GoStr) : (splitComma l).length = l.count ',' + 1 := by
  induction l with
  | nil => simp [splitComma]
  | cons c r ih =>
    simp only [splitComma]
    split
    · rename_i hc
      subst hc
      simp only [List.length_cons, List.count_cons, ih]
      simp
    · rename_i hc
      cases hs : splitComma r with
      | nil => exact absurd hs (splitComma_ne_nil r)
      | cons h0 t =>
        rw [hs] at ih
        simp only [List.length_cons, List.count_cons] at ih ⊢
        simp [hc]
        omega

theorem splitComma_no_comma (l : GoStr) (h : ',' ∉ l) : splitComma l = [l] := by
  induction l with
  | nil => simp [splitComma]
  | cons c r ih =>
    simp only [splitComma]
    have hc : ¬ c = ',' := fun hh => h (by simp [hh])
    rw [if_neg hc]
    rw [ih (fun hm => h (List.mem_cons_of_mem c hm))]

theorem splitComma_pair (a b : GoStr) (ha : ',' ∉ a) (hb : ',' ∉ b) :
    splitComma (a ++ ',' :: b) = [a, b] := by
  induction a with
  | nil => simp [splitComma, splitComma_no_comma b hb]
  | cons c a' ih =>
    have hc : ¬ c = ',' := fun hh => ha (by simp [hh])
    simp only [List.cons_append, splitComma, List.append_eq]
    rw [if_neg hc, ih (fun hm => ha (List.mem_cons_of_mem c hm))]

theorem splitComma_eq_singleton {l a : GoStr} (h : splitComma l = [a]) :
    l = a ∧ ',' ∉ a := by
  induction l generalizing a with
  | nil =>
    simp [splitComma] at h
    subst h
    simp
  | cons c r ih =>
    simp only [splitComma] at h
    by_cases hc : c = ','
    · rw [if_pos hc] at h
      have := splitComma_ne_nil r
      simp at h
      exact absurd h.2 this
    · rw [if_neg hc] at h
      cases hs : splitComma r with
      | nil => exact absurd hs (splitComma_ne_nil r)
      | cons h0 t =>
        rw [hs] at h
        simp at h
        obtain ⟨rfl, rfl⟩ := h
        obtain ⟨rfl, hnc⟩ := ih hs
        refine ⟨rfl, ?_⟩
        simp only [List.mem_cons, not_or]
        exact ⟨fun hh => hc hh.symm, hnc⟩

theorem splitComma_eq_pair {l a b : GoStr} (h : splitComma l = [a, b]) :
    l = a ++ ',' :: b ∧ ',' ∉ a ∧ ',' ∉ b := by
  induction l generalizing a with
  | nil => simp [splitComma] at h
  | cons c r ih =>
    simp only [splitComma] at h
    by_cases hc : c = ','
    · rw [if_pos hc] at h
      simp at h
      obtain ⟨rfl, hr⟩ := h
      obtain ⟨rfl, hnb⟩ := splitComma_eq_singleton hr
      subst hc
      exact ⟨rfl, by simp, hnb⟩
    · rw [if_neg hc] at h
      cases hs : splitComma r with
      | nil => exact absurd hs (splitComma_ne_nil r)
      | cons h0 t =>
        rw [hs] at h
        simp at h
        obtain ⟨rfl, rfl⟩ := h
        obtain ⟨rfl, hna, hnb⟩ := ih hs
        refine ⟨by simp, ?_, hnb⟩
        simp only [List.mem_cons, not_or]
        exact ⟨fun hh => hc hh.symm, hna⟩

theorem maxColOf_bounds (a b c d : Nat) :
    a ≤ maxColOf a b c d ∧ b ≤ maxColOf a b c d ∧ c ≤ maxColOf a b c d ∧
      d ≤ maxColOf a b c d := by
  simp only [maxColOf]
  split_ifs <;> omega

theorem padRow_length (row : List GoStr) (maxCol : Nat) :
    (padRow row maxCol).length = max row.length (maxCol + 1) := by
  simp [padRow]
  omega

theorem rgAux_429_cont (t : Nat → GeoReq → HttpReply) (req : GeoReq) (a f : Nat)
    (b : String) (d : Option GeocodeResponse) (hs : t a req = .reply 429 b d) (hf : 0 < f) :
    rgAux t req a (f + 1) =
      ((rgAux t req (a + 1) f).1,
        (if 0 < a then [GeoEv.backoff (2 * 2 ^ (a - 1))] else []) ++
          GeoEv.request a :: GeoEv.rateWait ((a + 1) * 10) :: (rgAux t req (a + 1) f).2) := by
  simp only [rgAux, hs]
  simp [hf]

theorem rgAux_200_ok (t : Nat → GeoReq → HttpReply) (req : GeoReq) (a f : Nat)
    (b : String) (resp : GeocodeResponse) (hs : t a req = .reply 200 b (some resp))
    (h : resp.displayName ≠ "") :
    rgAux t req a (f + 1) =
      (.ok (formatFullAddress resp) (extractDistrictAndProvince resp).1
        (extractDistrictAndProvince resp).2,
        (if 0 < a then [GeoEv.backoff (2 * 2 ^ (a - 1))] else []) ++ [GeoEv.request a]) := by
  simp only [rgAux, hs]
  simp [h]

theorem rgAux_head0 (t : Nat → GeoReq → HttpReply) (req : GeoReq) (f : Nat) :
    (rgAux t req 0 (f + 1)).2.head? = some (.request 0) := by
  simp only [rgAux]
  split
  · split <;> simp
  · split
    · split <;> simp
    · split
      · split <;> simp
      · split
        · split <;> simp
        · split <;> simp

theorem mem_batchRanges_250k {r : Nat × Nat} :
    r ∈ batchRanges 250001 1000 ↔ ∃ b, b < 250 ∧ r = (b * 1000 + 1, b * 1000 + 1001) := by
  simp only [batchRanges]
  norm_num
  constructor
  · rintro ⟨b, hb, rfl⟩
    refine ⟨b, hb, ?_⟩
    have hm : min (b * 1000 + 1 + 1000) 250001 = b * 1000 + 1001 := by omega
    rw [hm]
  · rintro ⟨b, hb, rfl⟩
    refine ⟨b, hb, ?_⟩
    have hm : min (b * 1000 + 1 + 1000) 250001 = b * 1000 + 1001 := by omega
    rw [hm]

theorem length_batchRanges_250k : (batchRanges 250001 1000).length = 250 := by
  simp only [batchRanges]
  norm_num

theorem runBatchesM_invocations (upstream : GeoReq → Except String ResolvedLocation)
    (rows : List (List GoStr)) (latLngCol addressCol districtCol provinceCol : Nat)
    (saveOK : Nat → Bool) (ranges : List (Nat × Nat)) :
    ∀ (k : Nat) (c : Cache),
      (runBatchesM upstream rows latLngCol addressCol districtCol provinceCol saveOK
        ranges k c).invocations = ranges := by
  induction ranges with
  | nil => intro k c; rfl
  | cons r rest ih =>
    intro k c
    obtain ⟨s, e⟩ := r
    simp only [runBatchesM]
    rw [ih]

theorem runBatchesM_saveOK_irrelevant (upstream : GeoReq → Except String ResolvedLocation)
    (rows : List (List GoStr)) (latLngCol addressCol districtCol provinceCol : Nat)
    (saveOK1 saveOK2 : Nat → Bool) (ranges : List (Nat × Nat)) :
    ∀ (k1 k2 : Nat) (c : Cache),
      (runBatchesM upstream rows latLngCol addressCol districtCol provinceCol saveOK1
          ranges k1 c).results =
        (runBatchesM upstream rows latLngCol addressCol districtCol provinceCol saveOK2
          ranges k2 c).results ∧
      (runBatchesM upstream rows latLngCol addressCol districtCol provinceCol saveOK1
          ranges k1 c).writes =
        (runBatchesM upstream rows latLngCol addressCol districtCol provinceCol saveOK2
          ranges k2 c).writes ∧
      (runBatchesM upstream rows latLngCol addressCol districtCol provinceCol saveOK1
          ranges k1 c).processed =
        (runBatchesM upstream rows latLngCol addressCol districtCol provinceCol saveOK2
          ranges k2 c).processed ∧
      (runBatchesM upstream rows latLngCol addressCol districtCol provinceCol saveOK1
          ranges k1 c).cache =
        (runBatchesM upstream rows latLngCol addressCol districtCol provinceCol saveOK2
          ranges k2 c).cache := by
  induction ranges with
  | nil => intro k1 k2 c; exact ⟨rfl, rfl, rfl, rfl⟩
  | cons r rest ih =>
    intro k1 k2 c
    obtain ⟨s, e⟩ := r
    simp only [runBatchesM]
    obtain ⟨h1, h2, h3, h4⟩ := ih (k1 + 1) (k2 + 1)
      (processBatchM upstream ((rows.drop s).take (e - s)) (s - 1) latLngCol addressCol
        districtCol provinceCol c).2
    exact ⟨by rw [h1], by rw [h2], by rw [h3], h4⟩

theorem runBatchesM_warnings (upstream : GeoReq → Except String ResolvedLocation)
    (rows : List (List GoStr)) (latLngCol addressCol districtCol provinceCol : Nat)
    (saveOK : Nat → Bool) (ranges : List (Nat × Nat)) :
    ∀ (k : Nat) (c : Cache),
      (runBatchesM upstream rows latLngCol addressCol districtCol provinceCol saveOK
        ranges k c).warnings = (List.range' k ranges.length).filter (fun b => !saveOK b) := by
  induction ranges with
  | nil => intro k c; simp [runBatchesM]
  | cons r rest ih =>
    intro k c
    obtain ⟨s, e⟩ := r
    simp only [runBatchesM, List.length_cons, List.range'_succ, List.filter]
    rw [ih]
    cases h : saveOK k <;> simp [h]

theorem not_wellFormed_of_false (l : GoStr) (hb : wellFormedB l = false) :
    ¬ ∃ a b, goTrim l = a ++ ',' :: b ∧ ',' ∉ a ∧ ',' ∉ b ∧
      (goParseFloat (goTrim a)).isSome ∧ (goParseFloat (goTrim b)).isSome := by
  rintro ⟨a, b, hl, ha, hbn, hfa, hfb⟩
  have hs : splitComma (goTrim l) = [a, b] := by rw [hl]; exact splitComma_pair a b ha hbn
  unfold wellFormedB at hb
  rw [hs] at hb
  simp [hfa, hfb] at hb

/-! Claim theorems. -/

/-- C1: two coordinate pairs whose latitude and longitude format identically at
six decimal places produce the same cache key in `get` and `set`; resolving
them in sequence against a cache with no entry at that key calls the upstream
geocoder exactly once across the two calls, and both calls yield the same
resolved (fullAddress, district, province) value. -/
theorem cacheKey_six_decimal_single_upstream_call
    (upstream : GeoReq → Except String ResolvedLocation) (c : Cache)
    (lat1 lng1 lat2 lng2 : GoFloat) (v : ResolvedLocation)
    (hlat : fmt6 lat1 = fmt6 lat2) (hlng : fmt6 lng1 = fmt6 lng2)
    (hmiss : cacheGet c lat1 lng1 = none)
    (hup : upstream (geoRequest lat1 lng1) = .ok v) :
    cacheKey lat1 lng1 = cacheKey lat2 lng2 ∧
    (resolveViaCache upstream c lat1 lng1).1 = .ok v ∧
    (resolveViaCache upstream (resolveViaCache upstream c lat1 lng1).2.1 lat2 lng2).1 = .ok v ∧
    (resolveViaCache upstream c lat1 lng1).2.2 +
      (resolveViaCache upstream (resolveViaCache upstream c lat1 lng1).2.1 lat2 lng2).2.2 = 1 := by
  have hkey : cacheKey lat1 lng1 = cacheKey lat2 lng2 := by
    unfold cacheKey
    rw [hlat, hlng]
  have h1 : resolveViaCache upstream c lat1 lng1 = (.ok v, cacheSet c lat1 lng1 v, 1) := by
    unfold resolveViaCache
    rw [hmiss]
    dsimp only
    rw [hup]
  have h2 : cacheGet (cacheSet c lat1 lng1 v) lat2 lng2 = some v := by
    unfold cacheGet cacheSet
    rw [← hkey]
    simp [List.lookup]
  have h3 : resolveViaCache upstream (cacheSet c lat1 lng1 v) lat2 lng2 =
      (.ok v, cacheSet c lat1 lng1 v, 0) := by
    unfold resolveViaCache
    rw [h2]
  rw [h1]
  dsimp only
  rw [h3]
  exact ⟨hkey, rfl, rfl, rfl⟩

/-- Witness for C1 at the distinct values 13.7563001 and 13.756300, which
format identically at six decimals, starting from the empty cache. -/
theorem cacheKey_six_decimal_single_upstream_call_witness :
    cacheKey c1latA c1lng = cacheKey c1latB c1lng ∧
    (resolveViaCache c1upstream [] c1latA c1lng).1 = .ok ⟨"a", "d", "p"⟩ ∧
    (resolveViaCache c1upstream (resolveViaCache c1upstream [] c1latA c1lng).2.1 c1latB
      c1lng).1 = .ok ⟨"a", "d", "p"⟩ ∧
    (resolveViaCache c1upstream [] c1latA c1lng).2.2 +
      (resolveViaCache c1upstream (resolveViaCache c1upstream [] c1latA c1lng).2.1 c1latB
        c1lng).2.2 = 1 :=
  cacheKey_six_decimal_single_upstream_call c1upstream [] c1latA c1lng c1latB c1lng
    ⟨"a", "d", "p"⟩ (by decide) (by decide) rfl rfl

/-- C2: for every coordinate pair, a transport answering 429, 429, then 200
with a decodable body whose display name is non-empty yields a successful
resolution after exactly three outbound requests; a transport answering 429 on
every attempt yields the rate-limit error after exactly three outbound
requests (attempts 0, 1, 2 only, never a fourth). -/
theorem geocode_retry_exactly_three_calls (lat lng : GoFloat) (resp : GeocodeResponse)
    (h : resp.displayName ≠ "") :
    (reverseGeocodeGo lat lng (twoRateLimitsThenOK resp)).1 =
      .ok (formatFullAddress resp) (extractDistrictAndProvince resp).1
        (extractDistrictAndProvince resp).2 ∧
    requestCount (reverseGeocodeGo lat lng (twoRateLimitsThenOK resp)).2 = 3 ∧
    (reverseGeocodeGo lat lng alwaysRateLimited).1 = .rateLimited ∧
    requestCount (reverseGeocodeGo lat lng alwaysRateLimited).2 = 3 ∧
    (reverseGeocodeGo lat lng alwaysRateLimited).2.filter isRequestEv =
      [.request 0, .request 1, .request 2] := by
  have e2 : rgAux (twoRateLimitsThenOK resp) (geoRequest lat lng) 2 (0 + 1) =
      (.ok (formatFullAddress resp) (extractDistrictAndProvince resp).1
        (extractDistrictAndProvince resp).2, [.backoff 4, .request 2]) := by
    rw [rgAux_200_ok (twoRateLimitsThenOK resp) (geoRequest lat lng) 2 0 "" resp rfl h]
    norm_num
  have e1 : rgAux (twoRateLimitsThenOK resp) (geoRequest lat lng) 1 (1 + 1) =
      (.ok (formatFullAddress resp) (extractDistrictAndProvince resp).1
        (extractDistrictAndProvince resp).2,
       [.backoff 2, .request 1, .rateWait 20, .backoff 4, .request 2]) := by
    rw [rgAux_429_cont (twoRateLimitsThenOK resp) (geoRequest lat lng) 1 1 "" none rfl
      (by norm_num)]
    norm_num at e2 ⊢
    rw [e2]
    exact ⟨rfl, rfl⟩
  have e0 : reverseGeocodeGo lat lng (twoRateLimitsThenOK resp) =
      (.ok (formatFullAddress resp) (extractDistrictAndProvince resp).1
        (extractDistrictAndProvince resp).2,
       [.request 0, .rateWait 10, .backoff 2, .request 1, .rateWait 20, .backoff 4,
        .request 2]) := by
    unfold reverseGeocodeGo
    rw [show (3 : Nat) = 2 + 1 from rfl]
    rw [rgAux_429_cont (twoRateLimitsThenOK resp) (geoRequest lat lng) 0 2 "" none rfl
      (by norm_num)]
    norm_num at e1 ⊢
    rw [e1]
    exact ⟨rfl, rfl⟩
  have er : reverseGeocodeGo lat lng alwaysRateLimited =
      (.rateLimited,
       [.request 0, .rateWait 10, .backoff 2, .request 1, .rateWait 20, .backoff 4,
        .request 2]) := rfl
  rw [e0, er]
  exact ⟨rfl, rfl, rfl, rfl, rfl⟩

/-- Witness for C2 at the end-to-end scenario's coordinates and response. -/
theorem geocode_retry_exactly_three_calls_witness :
    (reverseGeocodeGo latStungTreng lngStungTreng (twoRateLimitsThenOK stungTrengResp)).1 =
      .ok (formatFullAddress stungTrengResp) (extractDistrictAndProvince stungTrengResp).1
        (extractDistrictAndProvince stungTrengResp).2 ∧
    requestCount (reverseGeocodeGo latStungTreng lngStungTreng
      (twoRateLimitsThenOK stungTrengResp)).2 = 3 ∧
    (reverseGeocodeGo latStungTreng lngStungTreng alwaysRateLimited).1 = .rateLimited ∧
    requestCount (reverseGeocodeGo latStungTreng lngStungTreng alwaysRateLimited).2 = 3 ∧
    (reverseGeocodeGo latStungTreng lngStungTreng alwaysRateLimited).2.filter isRequestEv =
      [.request 0, .request 1, .request 2] :=
  geocode_retry_exactly_three_calls latStungTreng lngStungTreng stungTrengResp (by decide)

/-- C3: no sleep precedes the first attempt of the geocode client (its trace
always begins with request 0, for every transport); on the 429, 429, 200 run
the trace is exactly: request 0, rate-limit penalty 10 (= (0+1)*10), backoff 2
(= 2*2^0), request 1, rate-limit penalty 20 (= (1+1)*10), backoff 4 (= 2*2^1),
request 2 — the penalties are additional to and distinct from the backoffs. -/
theorem reverseGeocode_backoff_schedule :
    (∀ (lat lng : GoFloat) (t : Nat → GeoReq → HttpReply),
      (reverseGeocodeGo lat lng t).2.head? = some (.request 0)) ∧
    (reverseGeocodeGo latStungTreng lngStungTreng (twoRateLimitsThenOK stungTrengResp)).2 =
      [.request 0, .rateWait 10, .backoff 2, .request 1, .rateWait 20, .backoff 4,
        .request 2] := by
  constructor
  · intro lat lng t
    unfold reverseGeocodeGo
    rw [show (3 : Nat) = 2 + 1 from rfl]
    exact rgAux_head0 t (geoRequest lat lng) 2
  · decide

/-- C4: a table of 250,000 data rows selects batched mode (at 100,000 it does
not); the batch coordinator produces exactly 250 contiguous slices of
1,000 rows each, whose union of consumed absolute row indices is exactly the
data-row range 1..250,000 with no duplicates and no gaps, and the batched run
invokes the worker pool once per slice. -/
theorem batch_partition_250k :
    chooseBatchedMode 250000 = true ∧
    chooseBatchedMode 100000 = false ∧
    (batchRanges 250001 1000).length = 250 ∧
    batchRanges 250001 1000 =
      (List.range 250).map (fun b => (b * 1000 + 1, b * 1000 + 1001)) ∧
    (∀ r ∈ batchRanges 250001 1000, r.2 - r.1 = 1000) ∧
    (∀ i : Nat, (∃ r ∈ batchRanges 250001 1000, r.1 ≤ i ∧ i < r.2) ↔ 1 ≤ i ∧ i < 250001) ∧
    (∀ r1 ∈ batchRanges 250001 1000, ∀ r2 ∈ batchRanges 250001 1000, ∀ i : Nat,
      r1.1 ≤ i → i < r1.2 → r2.1 ≤ i → i < r2.2 → r1 = r2) ∧
    (∀ (upstream : GeoReq → Except String ResolvedLocation) (rows : List (List GoStr))
      (latLngCol addressCol districtCol provinceCol : Nat) (saveOK : Nat → Bool),
      rows.length = 250001 →
      (processRowsInBatchesM upstream rows latLngCol addressCol districtCol provinceCol 1000
        saveOK).invocations = batchRanges 250001 1000) := by
  refine ⟨by decide, by decide, length_batchRanges_250k, ?_, ?_, ?_, ?_, ?_⟩
  · simp only [batchRanges]
    norm_num
    intro b hb
    omega
  · intro r hr
    obtain ⟨b, hb, rfl⟩ := mem_batchRanges_250k.mp hr
    simp
  · intro i
    constructor
    · rintro ⟨r, hr, h1, h2⟩
      obtain ⟨b, hb, rfl⟩ := mem_batchRanges_250k.mp hr
      simp only at h1 h2
      omega
    · rintro ⟨h1, h2⟩
      refine ⟨((i - 1) / 1000 * 1000 + 1, (i - 1) / 1000 * 1000 + 1001),
        mem_batchRanges_250k.mpr ⟨(i - 1) / 1000, by omega, rfl⟩, by omega, by omega⟩
  · intro r1 hr1 r2 hr2 i ha1 ha2 hb1 hb2
    obtain ⟨b1, hB1, rfl⟩ := mem_batchRanges_250k.mp hr1
    obtain ⟨b2, hB2, rfl⟩ := mem_batchRanges_250k.mp hr2
    simp only at ha1 ha2 hb1 hb2
    have : b1 = b2 := by omega
    subst this
    rfl
  · intro upstream rows latLngCol addressCol districtCol provinceCol saveOK hlen
    unfold processRowsInBatchesM
    rw [hlen]
    exact runBatchesM_invocations upstream rows latLngCol addressCol districtCol provinceCol
      saveOK (batchRanges 250001 1000) 0 []

/-- Witness for C4 on a concrete 250,001-row table. -/
theorem batch_partition_250k_witness :
    (processRowsInBatchesM (fun _ => .error "") (List.replicate 250001 []) 0 1 2 3 1000
      (fun _ => true)).invocations = batchRanges 250001 1000 :=
  batch_partition_250k.2.2.2.2.2.2.2 (fun _ => .error "") (List.replicate 250001 []) 0 1 2 3
    (fun _ => true) (List.length_replicate 250001 [])

/-- C5: the response with district, province "Stung Treng" and country
"Cambodia" (all other fields empty, non-empty display name) resolves to
fullAddress "Stung Treng, Stung Treng, Cambodia", district "Stung Treng" and
province "Stung Treng", both through the formatting functions and through the
full geocode client on a 200 reply. -/
theorem stungTreng_resolution :
    (reverseGeocodeGo latStungTreng lngStungTreng
        (fun _ _ => .reply 200 "" (some stungTrengResp))).1 =
      .ok "Stung Treng, Stung Treng, Cambodia" "Stung Treng" "Stung Treng" ∧
    formatFullAddress stungTrengResp = "Stung Treng, Stung Treng, Cambodia" ∧
    extractDistrictAndProvince stungTrengResp = ("Stung Treng", "Stung Treng") := by
  refine ⟨by decide, by decide, by decide⟩

/-- C6 (code bug): in the batched path, a table with one data row "1,2" at
absolute index 1 is sliced as [1, 2) and handed to the worker pool with
startIndex 1 - 1 = 0, so the single job's result carries rowIndex 0 — not the
job's absolute row index 1 — and its cell writes land on sheet row 1 (the
header row) instead of sheet row 2. -/
theorem batched_rowIndex_off_by_one :
    (processRowsInBatchesM c6upstream c6rows 0 1 2 3 1000 (fun _ => true)).invocations =
      [(1, 2)] ∧
    (processRowsInBatchesM c6upstream c6rows 0 1 2 3 1000 (fun _ => true)).results =
      [.resolved 0 ⟨"A", "D", "P"⟩ ⟨.finite false 1 0 0, .finite false 2 0 0⟩] ∧
    (processRowsInBatchesM c6upstream c6rows 0 1 2 3 1000 (fun _ => true)).writes =
      [⟨1, 1, "A"⟩, ⟨1, 2, "D"⟩, ⟨1, 3, "P"⟩] ∧
    (processRowsInBatchesM c6upstream c6rows 0 1 2 3 1000 (fun _ => true)).results ≠
      [.resolved 1 ⟨"A", "D", "P"⟩ ⟨.finite false 1 0 0, .finite false 2 0 0⟩] := by
  refine ⟨by decide, by decide, by decide, by decide⟩

/-- C7: whatever checkpoint saves fail, the batched run performs the same pool
invocations, produces the same results and cell writes, the same processed
count and the same final cache as a run whose saves all succeed, and each
failed save is reported as a warning for its batch. -/
theorem checkpoint_failure_nonfatal (upstream : GeoReq → Except String ResolvedLocation)
    (rows : List (List GoStr)) (latLngCol addressCol districtCol provinceCol batchSize : Nat)
    (saveOK : Nat → Bool) :
    (processRowsInBatchesM upstream rows latLngCol addressCol districtCol provinceCol batchSize
        saveOK).invocations = batchRanges rows.length batchSize ∧
    (processRowsInBatchesM upstream rows latLngCol addressCol districtCol provinceCol batchSize
        saveOK).results =
      (processRowsInBatchesM upstream rows latLngCol addressCol districtCol provinceCol batchSize
        (fun _ => true)).results ∧
    (processRowsInBatchesM upstream rows latLngCol addressCol districtCol provinceCol batchSize
        saveOK).writes =
      (processRowsInBatchesM upstream rows latLngCol addressCol districtCol provinceCol batchSize
        (fun _ => true)).writes ∧
    (processRowsInBatchesM upstream rows latLngCol addressCol districtCol provinceCol batchSize
        saveOK).processed =
      (processRowsInBatchesM upstream rows latLngCol addressCol districtCol provinceCol batchSize
        (fun _ => true)).processed ∧
    (processRowsInBatchesM upstream rows latLngCol addressCol districtCol provinceCol batchSize
        saveOK).cache =
      (processRowsInBatchesM upstream rows latLngCol addressCol districtCol provinceCol batchSize
        (fun _ => true)).cache ∧
    (processRowsInBatchesM upstream rows latLngCol addressCol districtCol provinceCol batchSize
        saveOK).warnings =
      (List.range (batchRanges rows.length batchSize).length).filter (fun b => !saveOK b) := by
  unfold processRowsInBatchesM
  obtain ⟨h1, h2, h3, h4⟩ := runBatchesM_saveOK_irrelevant upstream rows latLngCol addressCol
    districtCol provinceCol saveOK (fun _ => true) (batchRanges rows.length batchSize) 0 0 []
  refine ⟨runBatchesM_invocations _ _ _ _ _ _ _ _ 0 [], h1, h2, h3, h4, ?_⟩
  rw [runBatchesM_warnings, List.range_eq_range']

/-- C8 counterexample: on the input "1,2,3", splitting on the first comma
yields exactly the two segments "1" and "2,3" — so the claim's parser would
not report BadFormat (it would fail on the longitude side) — but the code
splits on every comma, gets three segments, and reports BadFormat. -/
theorem parser_splits_every_comma_counterexample :
    parseCell ['1', ',', '2', ',', '3'] = .error .badFormat ∧
    specSplitFirstComma ['1', ',', '2', ',', '3'] = [['1'], ['2', ',', '3']] ∧
    (Except.error ParseError.badFormat : Except ParseError Coordinates) ≠
      .error .badLongitude := by
  refine ⟨by decide, by decide, by decide⟩

/-- C8 (amended): the coordinate parser trims its input, fails with the
distinct EmptyInput error when the trimmed text is empty, splits the text on
EVERY comma (so two segments exist exactly when the text has exactly one
comma), fails with BadFormat when the split does not yield exactly two
segments, and otherwise reports BadLatitude or BadLongitude naming the
segment whose float parse failed. -/
theorem parser_split_behavior (l : GoStr) :
    (goTrim l = [] → parseCell l = .error .emptyInput) ∧
    (goTrim l ≠ [] → (splitComma (goTrim l)).length ≠ 2 → parseCell l = .error .badFormat) ∧
    ((splitComma (goTrim l)).length = 2 ↔ (goTrim l).count ',' = 1) ∧
    (∀ a b, goTrim l ≠ [] → splitComma (goTrim l) = [a, b] →
      parseCell l =
        match goParseFloat (goTrim a) with
        | none => .error .badLatitude
        | some la =>
          match goParseFloat (goTrim b) with
          | none => .error .badLongitude
          | some lb => .ok ⟨la, lb⟩) := by
  refine ⟨?_, ?_, ?_, ?_⟩
  · intro h
    simp [parseCell, h]
  · intro h hlen
    have hp : parseCell l = parseCoordinates (goTrim l) := by simp [parseCell, h]
    rw [hp]
    unfold parseCoordinates
    rcases hs : splitComma (goTrim l) with _ | ⟨a, _ | ⟨b, _ | ⟨c, t⟩⟩⟩
    · rfl
    · rfl
    · rw [hs] at hlen
      simp at hlen
    · rfl
  · rw [length_splitComma]
    omega
  · intro a b h hs
    have hp : parseCell l = parseCoordinates (goTrim l) := by simp [parseCell, h]
    rw [hp]
    unfold parseCoordinates
    rw [hs]

/-- Witness for C8 on the input "1,2,3" (three segments: BadFormat). -/
theorem parser_split_behavior_witness :
    parseCell ['1', ',', '2', ',', '3'] = .error .badFormat :=
  (parser_split_behavior ['1', ',', '2', ',', '3']).2.1 (by decide) (by decide)

/-- C9: for every input that is not exactly one comma separating two
float-parseable segments (after trimming), the parser returns a failure
value; it is a total function by construction, so it cannot panic. -/
theorem parser_total_fails_on_malformed (l : GoStr)
    (h : ¬ ∃ a b, goTrim l = a ++ ',' :: b ∧ ',' ∉ a ∧ ',' ∉ b ∧
        (goParseFloat (goTrim a)).isSome ∧ (goParseFloat (goTrim b)).isSome) :
    ∃ e, parseCell l = .error e := by
  by_cases ht : goTrim l = []
  · exact ⟨.emptyInput, by simp [parseCell, ht]⟩
  · have hp : parseCell l = parseCoordinates (goTrim l) := by simp [parseCell, ht]
    rcases hs : splitComma (goTrim l) with _ | ⟨a, _ | ⟨b, _ | ⟨c, t⟩⟩⟩
    · exact ⟨.badFormat, by rw [hp]; unfold parseCoordinates; rw [hs]⟩
    · exact ⟨.badFormat, by rw [hp]; unfold parseCoordinates; rw [hs]⟩
    · rcases hf : goParseFloat (goTrim a) with _ | la
      · exact ⟨.badLatitude, by rw [hp]; unfold parseCoordinates; rw [hs]; dsimp only; rw [hf]⟩
      · rcases hg : goParseFloat (goTrim b) with _ | lb
        · exact ⟨.badLongitude, by
            rw [hp]; unfold parseCoordinates; rw [hs]; dsimp only; rw [hf]; dsimp only; rw [hg]⟩
        · exfalso
          apply h
          obtain ⟨hl, ha, hbn⟩ := splitComma_eq_pair hs
          exact ⟨a, b, hl, ha, hbn, by simp [hf], by simp [hg]⟩
    · exact ⟨.badFormat, by rw [hp]; unfold parseCoordinates; rw [hs]⟩

/-- Witness for C9 on the comma-free input "abc". -/
theorem parser_total_fails_on_malformed_witness :
    ∃ e, parseCell ['a', 'b', 'c'] = .error e :=
  parser_total_fails_on_malformed ['a', 'b', 'c'] (not_wellFormed_of_false _ (by decide))

/-- C10: the worker pads every row to one past the largest of the four column
indices before any access, so each of those indices is within the padded
row's bounds for every input row; and a row whose coordinate cell trims to
empty is emitted as Skipped with the cache untouched, the parser never
invoked, and zero upstream calls. -/
theorem row_padding_safe (upstream : GeoReq → Except String ResolvedLocation) (cache : Cache)
    (row : List GoStr) (rowIndex latLngCol addressCol districtCol provinceCol : Nat) :
    (latLngCol < (padRow row (maxColOf latLngCol addressCol districtCol provinceCol)).length ∧
     addressCol < (padRow row (maxColOf latLngCol addressCol districtCol provinceCol)).length ∧
     districtCol < (padRow row (maxColOf latLngCol addressCol districtCol provinceCol)).length ∧
     provinceCol < (padRow row (maxColOf latLngCol addressCol districtCol provinceCol)).length) ∧
    (goTrim ((padRow row (maxColOf latLngCol addressCol districtCol provinceCol)).getD
        latLngCol []) = [] →
      processRow upstream cache row rowIndex latLngCol addressCol districtCol provinceCol =
        (.skipped rowIndex .emptyCoordinates, cache, ⟨false, 0⟩)) := by
  constructor
  · have hb := maxColOf_bounds latLngCol addressCol districtCol provinceCol
    refine ⟨?_, ?_, ?_, ?_⟩ <;> rw [padRow_length] <;> omega
  · intro h
    simp only [processRow]
    rw [h]
    simp

/-- Witness for C10 on the fully empty row. -/
theorem row_padding_safe_witness :
    processRow (fun _ => .error "") [] [] 0 0 1 2 3 =
      (.skipped 0 .emptyCoordinates, [], ⟨false, 0⟩) :=
  (row_padding_safe (fun _ => .error "") [] [] 0 0 1 2 3).2 (by decide)
